import Mathlib

/-!
Verification of the "frais réels" expense-tracking application.

The repository ships the browser-side dashboard and administration code
(`app/static/app.js`, `app/static/admin.js` and two further JavaScript
files); the FastAPI backend holding the deduction engine
(`app/constants.py`, the resolvers and the annual aggregator described in
the specification) is not part of the published sources.  Definitions
below therefore come in two groups:

* shallow embeddings of the JavaScript source (decimal numbers are
  modelled as rationals, JavaScript objects as structures or as
  association-list JSON values where field names matter, thrown
  exceptions as `Except`/`Option`);
* models of the missing backend, each marked `Modelled from the spec:`
  in its doc comment and written strictly from the specification text.
-/

/-- Rounding to two decimal places using round-half-up, as prescribed by
the specification for all monetary sub-totals (§4.1, §4.5). -/
def round2 (q : ℚ) : ℚ := ((⌊q * 100 + 1 / 2⌋ : ℤ) : ℚ) / 100

/-- A rational that is a whole number of cents, i.e. already rounded to
two decimal places. -/
def IsCent (q : ℚ) : Prop := ∃ k : ℤ, q = (k : ℚ) / 100

/-- Modelled from the spec: one bracket of the mileage scale (§3,
`MileageScale`); the deduction engine holding it is in the backend
sources absent from the repository.  `upper_km_bound = none` is the
unbounded last bracket. -/
structure MileageBracket where
  upper_km_bound : Option ℚ
  rate_per_km : ℚ
  fixed_allowance : ℚ
deriving Repr, DecidableEq

/-- Modelled from the spec: the §3 invariant on a bracket list — bounds
strictly increasing (all above `lo`), every bracket but the last
bounded, the last bracket unbounded. -/
inductive ScaleWF : ℚ → List MileageBracket → Prop
  | last (lo : ℚ) (b : MileageBracket) (h : b.upper_km_bound = none) :
      ScaleWF lo [b]
  | cons (lo bound : ℚ) (b : MileageBracket) (rest : List MileageBracket)
      (hb : b.upper_km_bound = some bound) (hlt : lo < bound)
      (hrest : ScaleWF bound rest) : ScaleWF lo (b :: rest)

/-- Modelled from the spec: §4.1 bracket lookup — scan the ordered list
and keep the first bracket whose (inclusive) upper bound admits
`annual_km`; the unbounded bracket always matches. -/
def resolveBracket : List MileageBracket → ℚ → Option MileageBracket
  | [], _ => none
  | b :: rest, km =>
    match b.upper_km_bound with
    | none => some b
    | some bound => if km ≤ bound then some b else resolveBracket rest km

/-- Modelled from the spec: §4.1
`resolve_mileage_deduction(fiscal_power_cv, annual_km, scale)` applied to
the bracket list already selected for the vehicle's fiscal power —
`annual_km * rate_per_km + fixed_allowance` for the single matched
bracket, rounded once at the end. -/
def resolve_mileage_deduction (brackets : List MileageBracket) (annual_km : ℚ) :
    Option ℚ :=
  (resolveBracket brackets annual_km).map fun b =>
    round2 (annual_km * b.rate_per_km + b.fixed_allowance)

/-- Concrete 5 CV scale used to instantiate the bracket-selection
theorem: up to 5000 km at 0.529 €/km, up to 20000 km at 0.316 €/km plus
1065 €, beyond at 0.370 €/km. -/
def scaleFiveCv : List MileageBracket :=
  [⟨some 5000, 529 / 1000, 0⟩,
   ⟨some 20000, 316 / 1000, 1065⟩,
   ⟨none, 370 / 1000, 0⟩]

/-- Modelled from the spec: §3 `MileageEntry`, restricted to the fields
the §4 computation reads (entries are already grouped per person and
year by the caller). -/
structure MileageEntry where
  vehicle_id : Int
  month : Int
  km : ℚ
deriving Repr, DecidableEq

/-- Modelled from the spec: §3 `MealEntry` for one person and year. -/
structure MealEntry where
  month : Int
  meal_cost : ℚ
deriving Repr, DecidableEq

/-- Modelled from the spec: §3 `OtherExpenseEntry` for one person and
year. -/
structure OtherExpenseEntry where
  description : String
  amount : ℚ
  attachment_path : Option String
deriving Repr, DecidableEq

/-- Modelled from the spec: §3 `Vehicle` as consumed by the core. -/
structure Vehicle where
  vehicle_id : Int
  fiscal_power_cv : Int
deriving Repr, DecidableEq

/-- Modelled from the spec: §3 `MealCapConfig`. -/
structure MealCapConfig where
  daily_floor : ℚ
  daily_ceiling : ℚ
deriving Repr, DecidableEq

/-- Modelled from the spec: §4.3 `resolve_meal_deduction` under the
dominant rule the spec selects — `0` below the floor, otherwise
`min(meal_cost, daily_ceiling)`. -/
def resolve_meal_deduction (meal_cost : ℚ) (cap : MealCapConfig) : ℚ :=
  if meal_cost < cap.daily_floor then 0
  else min meal_cost cap.daily_ceiling

/-- Modelled from the spec: §3 `PersonAnnualDetail`, field names exactly
as the §6 interface contract lists them. -/
structure PersonAnnualDetail where
  mileage_entries : List MileageEntry
  meal_expenses : List MealEntry
  other_expenses : List OtherExpenseEntry
  mileage_total_km : ℚ
  mileage_deduction_total : ℚ
  meals_deduction_total : ℚ
  other_expenses_total : ℚ
  total_deduction : ℚ
deriving Repr, DecidableEq

/-- Modelled from the spec: the distinct vehicle ids appearing in a
person's mileage entries (§4.5 groups entries by `vehicle_id`). -/
def vehicleGroupIds (entries : List MileageEntry) : List Int :=
  (entries.map (·.vehicle_id)).dedup

/-- Modelled from the spec: §4.2 `aggregate_vehicle_km` — the summed
annual kilometres of one vehicle, additive across months and across
multiple rows of a month. -/
def aggregate_vehicle_km (entries : List MileageEntry) (vid : Int) : ℚ :=
  ((entries.filter fun e => e.vehicle_id == vid).map (·.km)).sum

/-- Modelled from the spec: §6 persisted-scale lookup by `power_cv`;
a missing tier surfaces as `none` (§4.5 reportable error, never a
silent zero). -/
def lookupBrackets (scale : List (Int × List MileageBracket))
    (power : Int) : Option (List MileageBracket) :=
  (scale.find? fun entry => entry.1 == power).map (·.2)

/-- Modelled from the spec: fiscal power of a vehicle referenced by a
mileage entry (§3, reference data owned by the CRUD layer). -/
def vehicleFiscalPower (vehicles : List Vehicle) (vid : Int) :
    Option Int :=
  (vehicles.find? fun v => v.vehicle_id == vid).map (·.fiscal_power_cv)

/-- Modelled from the spec: §4.5 `compute_person_annual_detail` — group
mileage by vehicle, resolve each group through the scale, sum the
deductions; clamp and sum the meals; sum the other expenses; category
sub-totals individually rounded, grand total rounded at the top level.
Missing fiscal power or scale tier yields `none`. -/
def compute_person_annual_detail
    (scale : List (Int × List MileageBracket)) (vehicles : List Vehicle)
    (mileage : List MileageEntry) (meals : List MealEntry)
    (others : List OtherExpenseEntry) (cap : MealCapConfig) :
    Option PersonAnnualDetail := do
  let deductions ← (vehicleGroupIds mileage).mapM fun vid => do
    let power ← vehicleFiscalPower vehicles vid
    let brackets ← lookupBrackets scale power
    resolve_mileage_deduction brackets (aggregate_vehicle_km mileage vid)
  let mileageTotalKm := (mileage.map (·.km)).sum
  let mileageDeductionTotal := deductions.sum
  let mealsDeductionTotal :=
    round2 ((meals.map fun e => resolve_meal_deduction e.meal_cost cap).sum)
  let otherExpensesTotal := round2 ((others.map (·.amount)).sum)
  let totalDeduction :=
    round2 (mileageDeductionTotal + mealsDeductionTotal + otherExpensesTotal)
  pure ⟨mileage, meals, others, mileageTotalKm, mileageDeductionTotal,
    mealsDeductionTotal, otherExpensesTotal, totalDeduction⟩

/-- One element of a dashboard person's `vehicle_summaries` array, as
read by `buildDetailPanel` and `filterPeople` (app.js). -/
structure VehicleSummary where
  vehicle_name : String
  total_km : ℚ
  deduction : ℚ
deriving Repr, DecidableEq

/-- A dashboard person summary as delivered by `/api/dashboard/` and
consumed by `summarizeTotals`, `filterPeople` and `sortPeople`
(app.js / part_000). -/
structure PersonSummary where
  person_id : Int
  first_name : String
  last_name : String
  household_name : String
  vehicle_summaries : List VehicleSummary
  meals_deduction : ℚ
  other_expenses : ℚ
  vehicle_deduction_total : ℚ
  total_deduction : ℚ
deriving Repr, DecidableEq

/-- The accumulator object built by `summarizeTotals`. -/
structure DashboardTotals where
  meals : ℚ
  other : ℚ
  vehicles : ℚ
  total : ℚ
deriving Repr, DecidableEq

/-- Embedded from `summarizeTotals` (app.js lines 269-285, identically
part_000 lines 470-486): a reduce over the people list accumulating the
four dashboard totals from zeroes. -/
def summarizeTotals (people : List PersonSummary) : DashboardTotals :=
  people.foldl
    (fun totals person =>
      ⟨totals.meals + person.meals_deduction,
       totals.other + person.other_expenses,
       totals.vehicles + person.vehicle_deduction_total,
       totals.total + person.total_deduction⟩)
    ⟨0, 0, 0, 0⟩

/-- Embedded from `parseIntegerField` (app.js lines 142-154, identically
part_000 lines 181-193).  The result of `Number.parseInt` is modelled as
`Option Int` (`none` for NaN); `null` bounds are `none`; error messages
are abbreviated. -/
def parseIntegerField (value : Option Int) (label : String)
    (lo hi : Option Int) : Except String Int :=
  match value with
  | none => Except.error (label ++ " invalide.")
  | some parsed =>
    if lo.any fun m => decide (parsed < m) then
      Except.error (label ++ " sous le minimum.")
    else if hi.any fun m => decide (m < parsed) then
      Except.error (label ++ " au-dessus du maximum.")
    else Except.ok parsed

/-- Embedded from `parseDecimalField` (app.js lines 162-171, identically
part_000 lines 201-210).  The result of `Number.parseFloat` is modelled
as `Option ℚ` (`none` for NaN and infinities). -/
def parseDecimalField (value : Option ℚ) (label : String)
    (lo : Option ℚ) : Except String ℚ :=
  match value with
  | none => Except.error (label ++ " invalide.")
  | some parsed =>
    if lo.any fun m => decide (parsed < m) then
      Except.error (label ++ " sous le minimum.")
    else Except.ok parsed

/-- Embedded from `parseTextField` (app.js lines 126-134, identically
part_000 lines 165-173); a `maxLength` of 0 is falsy in JavaScript and
disables the length check. -/
def parseTextField (value : String) (label : String) (maxLength : Nat) :
    Except String String :=
  if value = "" then Except.error (label ++ " requis.")
  else if maxLength ≠ 0 ∧ value.length > maxLength then
    Except.error (label ++ " trop long.")
  else Except.ok value

/-- The JSON payload returned by `buildMileagePayload`. -/
structure MileagePayload where
  person_id : Int
  vehicle_id : Int
  year : Int
  month : Int
  km : ℚ
deriving Repr, DecidableEq

/-- The JSON payload returned by `buildMealPayload`. -/
structure MealPayload where
  person_id : Int
  year : Int
  month : Int
  meal_cost : ℚ
deriving Repr, DecidableEq

/-- The JSON payload returned by `buildOtherExpensePayload`. -/
structure OtherExpensePayload where
  person_id : Int
  year : Int
  description : String
  amount : ℚ
  attachment_path : Option String
deriving Repr, DecidableEq

/-- Embedded from `buildMileagePayload` (app.js lines 511-548,
identically part_000 lines 740-777): the five fields are validated in
source order and the first failure aborts with a thrown error. -/
def buildMileagePayload (personId vehicleId year month : Option Int)
    (km : Option ℚ) : Except String MileagePayload := do
  let pid ← parseIntegerField personId "ID de la personne" (some 1) none
  let vid ← parseIntegerField vehicleId "ID du véhicule" (some 1) none
  let yr ← parseIntegerField year "Année" (some 2000) (some 2100)
  let mo ← parseIntegerField month "Mois" (some 1) (some 12)
  let k ← parseDecimalField km "Kilomètres" (some 0)
  pure ⟨pid, vid, yr, mo, k⟩

/-- Embedded from `buildMealPayload` (app.js lines 556-586, identically
part_000 lines 785-815). -/
def buildMealPayload (personId year month : Option Int)
    (mealCost : Option ℚ) : Except String MealPayload := do
  let pid ← parseIntegerField personId "ID de la personne" (some 1) none
  let yr ← parseIntegerField year "Année" (some 2000) (some 2100)
  let mo ← parseIntegerField month "Mois" (some 1) (some 12)
  let cost ← parseDecimalField mealCost "Montant repas" (some 0)
  pure ⟨pid, yr, mo, cost⟩

/-- Embedded from `buildOtherExpensePayload` (app.js lines 594-625,
identically part_000 lines 823-854); an empty `attachment_path` is sent
as `null`. -/
def buildOtherExpensePayload (personId year : Option Int)
    (description : String) (amount : Option ℚ)
    (attachmentPath : String) : Except String OtherExpensePayload := do
  let pid ← parseIntegerField personId "ID de la personne" (some 1) none
  let yr ← parseIntegerField year "Année" (some 2000) (some 2100)
  let desc ← parseTextField description "Description" 160
  let amt ← parseDecimalField amount "Montant" (some 0)
  pure ⟨pid, yr, desc, amt,
    if attachmentPath = "" then none else some attachmentPath⟩

/-- A JSON value, used where JavaScript field names are themselves the
subject of a claim (the detail response and the persisted mileage
scale). -/
inductive JVal where
  | null : JVal
  | num (q : ℚ) : JVal
  | str (s : String) : JVal
  | arr (elems : List JVal) : JVal
  | obj (fields : List (String × JVal)) : JVal

/-- Property access on a JSON object; `none` models JavaScript
`undefined` for a missing field or a non-object receiver. -/
def JVal.lookup (j : JVal) (key : String) : Option JVal :=
  match j with
  | .obj fields => (fields.find? fun f => f.1 == key).map (·.2)
  | _ => none

/-- Modelled from the spec: the §6 `PersonAnnualDetail` wire record as
the detail assembler serializes it — the five totals and the three
echoed entry lists under exactly the contract's field names. -/
def detailToJson (mileageEntries mealExpenses otherExpenses : List JVal)
    (mileageTotalKm mileageDeductionTotal mealsDeductionTotal
      otherExpensesTotal totalDeduction : ℚ) : JVal :=
  .obj [("mileage_entries", .arr mileageEntries),
        ("meal_expenses", .arr mealExpenses),
        ("other_expenses", .arr otherExpenses),
        ("mileage_total_km", .num mileageTotalKm),
        ("mileage_deduction_total", .num mileageDeductionTotal),
        ("meals_deduction_total", .num mealsDeductionTotal),
        ("other_expenses_total", .num otherExpensesTotal),
        ("total_deduction", .num totalDeduction)]

/-- Embedded from `buildDetailPanel` (part_000 lines 410-451): the
eight properties of the detail response the panel renders, read under
their exact names (five metric fields, then the three entry tables);
`none` marks an absent field. -/
def detailPanelReads (detail : JVal) :
    Option (JVal × JVal × JVal × JVal × JVal × JVal × JVal × JVal) :=
  match detail.lookup "mileage_total_km",
      detail.lookup "mileage_deduction_total",
      detail.lookup "meals_deduction_total",
      detail.lookup "other_expenses_total",
      detail.lookup "total_deduction",
      detail.lookup "mileage_entries",
      detail.lookup "meal_expenses",
      detail.lookup "other_expenses" with
  | some a, some b, some c, some d, some e, some f, some g, some h =>
    some (a, b, c, d, e, f, g, h)
  | _, _, _, _, _, _, _, _ => none

/-- Embedded from `loadPersonDetails` (part_001 lines 462-478): the
three entry lists copied from the detail response into
`state.details`. -/
def loadPersonDetailsFields (response : JVal) :
    Option (JVal × JVal × JVal) :=
  match response.lookup "mileage_entries",
      response.lookup "meal_expenses",
      response.lookup "other_expenses" with
  | some m, some s, some o => some (m, s, o)
  | _, _, _ => none

/-- The `max_km` column cell produced by `renderMileageScale`
(part_001 line 339): `null` renders as the text "Au-delà", a number as
itself, anything else as JavaScript would stringify `undefined`. -/
inductive KmCell where
  | beyond : KmCell
  | km (q : ℚ) : KmCell
  | undef : KmCell
deriving Repr, DecidableEq

/-- Embedded from the body of `renderMileageScale` (part_001 lines
337-349): one rendered row per bracket, reading the fields `max_km`,
`rate` and `fixed`.  Number formatting (`toFixed`) is abstracted — the
cells carry the numeric values; calling `toFixed` on a missing or
non-numeric `rate` or `fixed` throws a TypeError, modelled as `none`. -/
def renderScaleBracketRow (powerCv : Int) (bracket : JVal) :
    Option (Int × KmCell × ℚ × ℚ) :=
  match bracket.lookup "rate", bracket.lookup "fixed" with
  | some (.num rate), some (.num fixed) =>
    let maxKm : KmCell :=
      match bracket.lookup "max_km" with
      | some .null => .beyond
      | some (.num q) => .km q
      | _ => .undef
    some (powerCv, maxKm, rate, fixed)
  | _, _ => none

/-- Embedded from `renderMileageScale` (part_001 lines 335-354): rows
are pushed scale entry by scale entry and, within an entry, bracket by
bracket, so the rendered table preserves both orders; a TypeError while
rendering any bracket aborts the rendering. -/
def renderMileageScale (scale : List (Int × List JVal)) :
    Option (List (Int × KmCell × ℚ × ℚ)) := do
  let rowLists ← scale.mapM fun entry =>
    entry.2.mapM (renderScaleBracketRow entry.1)
  pure rowLists.flatten

/-- The cells `renderMileageScale` shows for a well-formed bracket,
used to state the round-trip theorem (defaults are irrelevant under the
well-formedness hypothesis). -/
def bracketCells (powerCv : Int) (bracket : JVal) :
    Int × KmCell × ℚ × ℚ :=
  (powerCv,
   match bracket.lookup "max_km" with
   | some .null => .beyond
   | some (.num q) => .km q
   | _ => .undef,
   (match bracket.lookup "rate" with
    | some (.num r) => r
    | _ => 0),
   match bracket.lookup "fixed" with
   | some (.num f) => f
   | _ => 0)

/-- Embedded from the dashboard row construction in `refreshDashboard`
(app.js lines 689-697): each row keeps its numeric fields and gains the
alias keys the sortable columns use (`meals`, `other`, `vehicles`,
`total`); dynamic property access by any other name yields JavaScript
`undefined`, modelled as `none`. -/
def PersonSummary.lookupNum (p : PersonSummary) (key : String) :
    Option ℚ :=
  if key == "meals" || key == "meals_deduction" then
    some p.meals_deduction
  else if key == "other" || key == "other_expenses" then
    some p.other_expenses
  else if key == "vehicles" || key == "vehicle_deduction_total" then
    some p.vehicle_deduction_total
  else if key == "total" || key == "total_deduction" then
    some p.total_deduction
  else none

/-- The numeric value the `sortPeople` comparator uses for a key:
`left[sortKey] ?? 0` (app.js line 381). -/
def PersonSummary.sortValue (p : PersonSummary) (key : String) : ℚ :=
  (p.lookupNum key).getD 0

/-- Embedded from the comparator inside `sortPeople` (app.js lines
367-390): `localeCompare` is the engine's collation function, taken as
the parameter `lc`. -/
def personComparator (lc : String → String → Int)
    (sortKey direction : String) (left right : PersonSummary) : Int :=
  let isAsc := direction == "asc"
  if sortKey == "person" then
    let nameLeft := left.last_name ++ " " ++ left.first_name
    let nameRight := right.last_name ++ " " ++ right.first_name
    if isAsc then lc nameLeft nameRight else lc nameRight nameLeft
  else if sortKey == "household" then
    if isAsc then lc left.household_name right.household_name
    else lc right.household_name left.household_name
  else
    let valueLeft := left.sortValue sortKey
    let valueRight := right.sortValue sortKey
    if valueLeft = valueRight then 0
    else if isAsc then if valueRight < valueLeft then 1 else -1
    else if valueLeft < valueRight then 1 else -1

/-- Embedded from `sortPeople` (app.js lines 365-392, identically
part_000 lines 566-593): the array is copied (`[...people]`) and the
copy is sorted by the comparator; the copy-then-sort is modelled as a
stable merge sort on an immutable list, keeping elements whose
comparator result is `≤ 0` in order. -/
def sortPeople (lc : String → String → Int)
    (people : List PersonSummary) (sortKey direction : String) :
    List PersonSummary :=
  people.mergeSort fun left right =>
    decide (personComparator lc sortKey direction left right ≤ 0)

/-- JavaScript `String.prototype.includes`: substring containment, on
the character lists of the two strings. -/
def strIncludes (s pat : String) : Bool :=
  decide (pat.toList <:+: s.toList)

/-- Embedded from the predicate inside `filterPeople` (app.js lines
346-356): the lowercased full name, household name or joined vehicle
names must contain the (already lowercased) query. -/
def personMatches (p : PersonSummary) (lower : String) : Bool :=
  let fullName := p.first_name ++ " " ++ p.last_name
  let vehicleNames :=
    String.intercalate " " (p.vehicle_summaries.map (·.vehicle_name))
  strIncludes fullName.toLower lower ||
  strIncludes p.household_name.toLower lower ||
  strIncludes vehicleNames.toLower lower

/-- Embedded from `filterPeople` (app.js lines 341-357, identically
part_000 lines 542-558): a falsy (empty) query returns the input array
itself; otherwise the people are filtered by the lowercased query. -/
def filterPeople (people : List PersonSummary) (query : String) :
    List PersonSummary :=
  if query = "" then people
  else people.filter fun p => personMatches p query.toLower

/-- A JavaScript value as classified by `Number.isFinite`: a finite
number, NaN, one of the two infinities, or any non-number value. -/
inductive JsValue where
  | finite (q : ℚ) : JsValue
  | nan : JsValue
  | posInf : JsValue
  | negInf : JsValue
  | nonNumber : JsValue
deriving Repr, DecidableEq

/-- `Number.isFinite`, true exactly on finite numbers, no coercion. -/
def JsValue.isFinite : JsValue → Bool
  | .finite _ => true
  | _ => false

/-- Embedded from `formatCurrency` (app.js lines 50-59, identically
part_000 lines 74-83): `!Number.isFinite(value)` short-circuits to the
fallback string "0 €"; the `Intl.NumberFormat` rendering of a finite
value is abstracted as the parameter `fmt`. -/
def formatCurrency (fmt : ℚ → String) (value : JsValue) : String :=
  match value with
  | .finite q => fmt q
  | _ => "0 €"

/-- A sample dashboard row used to instantiate theorems. -/
def samplePersonA : PersonSummary :=
  ⟨1, "Alice", "Martin", "Foyer Martin",
   [⟨"Peugeot 308", 1200, 635⟩], 10, 20, 30, 60⟩

/-- A second sample dashboard row used to instantiate theorems. -/
def samplePersonB : PersonSummary :=
  ⟨2, "Paul", "Durand", "Foyer Durand", [], 5, 0, 0, 5⟩

theorem isCent_round2 (q : ℚ) : IsCent (round2 q) := ⟨_, rfl⟩

theorem isCent_zero : IsCent 0 := ⟨0, by norm_num⟩

theorem isCent_add {a b : ℚ} (ha : IsCent a) (hb : IsCent b) :
    IsCent (a + b) := by
  obtain ⟨k, hk⟩ := ha
  obtain ⟨m, hm⟩ := hb
  exact ⟨k + m, by push_cast [hk, hm]; ring⟩

theorem isCent_sum {l : List ℚ} (h : ∀ q ∈ l, IsCent q) : IsCent l.sum := by
  induction l with
  | nil => simpa using isCent_zero
  | cons x xs ih =>
    rw [List.sum_cons]
    exact isCent_add (h x (List.mem_cons_self x xs))
      (ih fun q hq => h q (List.mem_cons_of_mem x hq))

theorem round2_eq_self {q : ℚ} (h : IsCent q) : round2 q = q := by
  obtain ⟨k, hk⟩ := h
  have h100 : (100 : ℚ) ≠ 0 := by norm_num
  have hq : q * 100 = (k : ℚ) := by
    rw [hk]; field_simp
  have hfloor : ⌊q * 100 + 1 / 2⌋ = k := by
    rw [hq, add_comm, Int.floor_add_int]
    have : ⌊(1 / 2 : ℚ)⌋ = 0 := by
      rw [Int.floor_eq_zero_iff]
      constructor <;> norm_num
    omega
  rw [round2, hfloor, hk]

theorem scaleWF_bounds_gt {lo : ℚ} {bs : List MileageBracket}
    (h : ScaleWF lo bs) :
    ∀ b ∈ bs, ∀ c, b.upper_km_bound = some c → lo < c := by
  induction h with
  | last lo b hnone =>
    intro b2 hmem c hc
    rw [List.mem_singleton] at hmem
    subst hmem
    rw [hnone] at hc
    exact absurd hc (by simp)
  | cons lo bound b rest hb hlt hrest ih =>
    intro b2 hmem c hc
    rcases List.mem_cons.mp hmem with hEq | hmem2
    · subst hEq
      rw [hb] at hc
      injection hc with hc
      exact hc ▸ hlt
    · exact lt_trans hlt (ih b2 hmem2 c hc)

/-- C1: on a well-formed scale, the mileage deduction is computed from
the single bracket whose `upper_km_bound` is the smallest one that is
`≥ annual_km` (the unbounded last bracket matching otherwise), as
`annual_km * rate_per_km + fixed_allowance` (rounded once); and an
`annual_km` exactly equal to a bracket's `upper_km_bound` is resolved by
that very bracket (inclusive upper bound), never by the next one. -/
theorem mileage_bracket_selection (lo : ℚ) (bs : List MileageBracket)
    (km : ℚ) (hwf : ScaleWF lo bs) :
    ∃ bk ∈ bs,
      resolveBracket bs km = some bk ∧
      resolve_mileage_deduction bs km =
        some (round2 (km * bk.rate_per_km + bk.fixed_allowance)) ∧
      (∀ c, bk.upper_km_bound = some c → km ≤ c ∧
        ∀ b2 ∈ bs, ∀ c2, b2.upper_km_bound = some c2 → km ≤ c2 → c ≤ c2) ∧
      (bk.upper_km_bound = none →
        ∀ b2 ∈ bs, ∀ c2, b2.upper_km_bound = some c2 → c2 < km) ∧
      (∀ b2 ∈ bs, b2.upper_km_bound = some km → bk = b2) := by
  induction hwf with
  | last lo b hnone =>
    refine ⟨b, List.mem_singleton_self b, ?_, ?_, ?_, ?_, ?_⟩
    · simp [resolveBracket, hnone]
    · simp [resolve_mileage_deduction, resolveBracket, hnone]
    · intro c hc
      rw [hnone] at hc
      exact absurd hc (by simp)
    · intro _ b2 hmem c2 hc2
      rw [List.mem_singleton] at hmem
      subst hmem
      rw [hnone] at hc2
      exact absurd hc2 (by simp)
    · intro b2 hmem hc2
      rw [List.mem_singleton] at hmem
      subst hmem
      rfl
  | cons lo bound b rest hb hlt hrest ih =>
    by_cases hkm : km ≤ bound
    · refine ⟨b, List.mem_cons_self b rest, ?_, ?_, ?_, ?_, ?_⟩
      · simp [resolveBracket, hb, hkm]
      · simp [resolve_mileage_deduction, resolveBracket, hb, hkm]
      · intro c hc
        rw [hb] at hc
        injection hc with hc
        subst hc
        refine ⟨hkm, ?_⟩
        intro b2 hmem c2 hc2 _
        rcases List.mem_cons.mp hmem with hEq | hmem2
        · subst hEq
          rw [hb] at hc2
          injection hc2 with hc2
          exact le_of_eq hc2
        · exact le_of_lt (scaleWF_bounds_gt hrest b2 hmem2 c2 hc2)
      · intro hcontra
        rw [hb] at hcontra
        exact absurd hcontra (by simp)
      · intro b2 hmem hc2
        rcases List.mem_cons.mp hmem with hEq | hmem2
        · exact hEq.symm
        · exact absurd hkm
            (not_le.mpr (scaleWF_bounds_gt hrest b2 hmem2 km hc2))
    · obtain ⟨bk, hmem, hres, hded, hbounded, hunbounded, hboundary⟩ := ih
      push_neg at hkm
      refine ⟨bk, List.mem_cons_of_mem b hmem, ?_, ?_, ?_, ?_, ?_⟩
      · simp [resolveBracket, hb, not_le.mpr hkm, hres]
      · simp [resolve_mileage_deduction, resolveBracket, hb,
          not_le.mpr hkm]
        simpa [resolve_mileage_deduction] using hded
      · intro c hc
        obtain ⟨hle, hmin⟩ := hbounded c hc
        refine ⟨hle, ?_⟩
        intro b2 hmem2 c2 hc2 hge
        rcases List.mem_cons.mp hmem2 with hEq | hmem3
        · subst hEq
          rw [hb] at hc2
          injection hc2 with hc2
          subst hc2
          exact absurd hge (not_le.mpr hkm)
        · exact hmin b2 hmem3 c2 hc2 hge
      · intro hnone b2 hmem2 c2 hc2
        rcases List.mem_cons.mp hmem2 with hEq | hmem3
        · subst hEq
          rw [hb] at hc2
          injection hc2 with hc2
          exact hc2 ▸ hkm
        · exact hunbounded hnone b2 hmem3 c2 hc2
      · intro b2 hmem2 hc2
        rcases List.mem_cons.mp hmem2 with hEq | hmem3
        · subst hEq
          rw [hb] at hc2
          injection hc2 with hc2
          exact absurd (hc2 ▸ hkm) (lt_irrefl km)
        · exact hboundary b2 hmem3 hc2

theorem scaleFiveCv_wf : ScaleWF 0 scaleFiveCv :=
  ScaleWF.cons 0 5000 _ _ rfl (by norm_num)
    (ScaleWF.cons 5000 20000 _ _ rfl (by norm_num)
      (ScaleWF.last 20000 _ rfl))

/-- C1 witness: the bracket-selection theorem instantiated at the 5 CV
scale with `annual_km = 5000`, exactly the first bracket's upper bound. -/
theorem mileage_bracket_selection_witness :
    ∃ bk ∈ scaleFiveCv,
      resolveBracket scaleFiveCv 5000 = some bk ∧
      resolve_mileage_deduction scaleFiveCv 5000 =
        some (round2 (5000 * bk.rate_per_km + bk.fixed_allowance)) ∧
      (∀ c, bk.upper_km_bound = some c → (5000 : ℚ) ≤ c ∧
        ∀ b2 ∈ scaleFiveCv, ∀ c2, b2.upper_km_bound = some c2 →
          (5000 : ℚ) ≤ c2 → c ≤ c2) ∧
      (bk.upper_km_bound = none →
        ∀ b2 ∈ scaleFiveCv, ∀ c2, b2.upper_km_bound = some c2 →
          c2 < 5000) ∧
      (∀ b2 ∈ scaleFiveCv, b2.upper_km_bound = some 5000 → bk = b2) :=
  mileage_bracket_selection 0 scaleFiveCv 5000 scaleFiveCv_wf

/-- C2: for a non-negative meal cost and a cap with
`daily_floor ≤ daily_ceiling`, the resolved deductible is 0 below the
floor, the cost itself between floor and ceiling, and the ceiling above
it; and the annual meals total aggregates the resolved deductible
amounts, not the raw costs. -/
theorem meal_deduction_clamp (cost : ℚ) (cap : MealCapConfig)
    (_hcost : 0 ≤ cost) (hcap : cap.daily_floor ≤ cap.daily_ceiling) :
    (cost < cap.daily_floor → resolve_meal_deduction cost cap = 0) ∧
    (cap.daily_floor ≤ cost → cost ≤ cap.daily_ceiling →
      resolve_meal_deduction cost cap = cost) ∧
    (cap.daily_ceiling < cost →
      resolve_meal_deduction cost cap = cap.daily_ceiling) ∧
    (∀ scale vehicles mileage meals others d,
      compute_person_annual_detail scale vehicles mileage meals others
        cap = some d →
      d.meals_deduction_total =
        round2 ((meals.map fun e =>
          resolve_meal_deduction e.meal_cost cap).sum)) := by
  refine ⟨?_, ?_, ?_, ?_⟩
  · intro hlt
    simp [resolve_meal_deduction, hlt]
  · intro hge hle
    rw [resolve_meal_deduction, if_neg (not_lt.mpr hge)]
    exact min_eq_left hle
  · intro hgt
    rw [resolve_meal_deduction,
      if_neg (not_lt.mpr (le_trans hcap (le_of_lt hgt)))]
    exact min_eq_right (le_of_lt hgt)
  · intro scale vehicles mileage meals others d h
    simp only [compute_person_annual_detail, bind, Option.bind_eq_some,
      pure, Option.some.injEq] at h
    obtain ⟨deds, _, hd⟩ := h
    rw [← hd]

/-- C2 witness: the clamp theorem applied to the specification's §8
scenario — floor 5.20 €, ceiling 20.70 €, costs 4.00, 10.00 and
25.00 €. -/
theorem meal_deduction_clamp_witness :
    resolve_meal_deduction 4 ⟨26 / 5, 207 / 10⟩ = 0 ∧
    resolve_meal_deduction 10 ⟨26 / 5, 207 / 10⟩ = 10 ∧
    resolve_meal_deduction 25 ⟨26 / 5, 207 / 10⟩ = 207 / 10 :=
  ⟨(meal_deduction_clamp 4 ⟨26 / 5, 207 / 10⟩ (by norm_num)
      (by norm_num)).1 (by norm_num),
   (meal_deduction_clamp 10 ⟨26 / 5, 207 / 10⟩ (by norm_num)
      (by norm_num)).2.1 (by norm_num) (by norm_num),
   (meal_deduction_clamp 25 ⟨26 / 5, 207 / 10⟩ (by norm_num)
      (by norm_num)).2.2.1 (by norm_num)⟩

theorem mapM_option_mem {α β : Type} {f : α → Option β} :
    ∀ {xs : List α} {ys : List β}, xs.mapM f = some ys →
      ∀ y ∈ ys, ∃ x ∈ xs, f x = some y := by
  intro xs
  induction xs with
  | nil =>
    intro ys h y hy
    simp only [List.mapM_nil, pure, Option.some.injEq] at h
    subst h
    exact absurd hy (List.not_mem_nil y)
  | cons x xs ih =>
    intro ys h y hy
    simp only [List.mapM_cons, bind, Option.bind_eq_some, pure,
      Option.some.injEq] at h
    obtain ⟨z, hz, zs, hzs, hys⟩ := h
    subst hys
    rcases List.mem_cons.mp hy with hEq | hmem
    · exact ⟨x, List.mem_cons_self x xs, hEq ▸ hz⟩
    · obtain ⟨x2, hx2, hfx2⟩ := ih hzs y hmem
      exact ⟨x2, List.mem_cons_of_mem x hx2, hfx2⟩

theorem resolve_mileage_deduction_isCent {bs : List MileageBracket}
    {km q : ℚ} (h : resolve_mileage_deduction bs km = some q) :
    IsCent q := by
  rw [resolve_mileage_deduction, Option.map_eq_some'] at h
  obtain ⟨b, _, hq⟩ := h
  exact hq ▸ isCent_round2 _

theorem summarizeTotals_invariant
    (people : List PersonSummary)
    (h : ∀ p ∈ people, p.total_deduction =
      p.vehicle_deduction_total + p.meals_deduction + p.other_expenses) :
    ∀ acc : DashboardTotals,
      acc.total = acc.vehicles + acc.meals + acc.other →
      (people.foldl
        (fun totals person =>
          ⟨totals.meals + person.meals_deduction,
           totals.other + person.other_expenses,
           totals.vehicles + person.vehicle_deduction_total,
           totals.total + person.total_deduction⟩) acc).total =
      (people.foldl
        (fun totals person =>
          ⟨totals.meals + person.meals_deduction,
           totals.other + person.other_expenses,
           totals.vehicles + person.vehicle_deduction_total,
           totals.total + person.total_deduction⟩) acc).vehicles +
      (people.foldl
        (fun totals person =>
          ⟨totals.meals + person.meals_deduction,
           totals.other + person.other_expenses,
           totals.vehicles + person.vehicle_deduction_total,
           totals.total + person.total_deduction⟩) acc).meals +
      (people.foldl
        (fun totals person =>
          ⟨totals.meals + person.meals_deduction,
           totals.other + person.other_expenses,
           totals.vehicles + person.vehicle_deduction_total,
           totals.total + person.total_deduction⟩) acc).other := by
  induction people with
  | nil =>
    intro acc hacc
    simpa using hacc
  | cons p ps ih =>
    intro acc hacc
    simp only [List.foldl_cons]
    refine ih (fun q hq => h q (List.mem_cons_of_mem p hq)) _ ?_
    have hp := h p (List.mem_cons_self p ps)
    simp only [hacc, hp]
    ring

/-- C3: a computed person annual detail satisfies
`total_deduction = mileage_deduction_total + meals_deduction_total +
other_expenses_total` exactly; and for every people list whose rows
satisfy that equation, the dashboard grand total of `summarizeTotals`
equals the sum of its three category grand totals. -/
theorem total_deduction_consistency :
    (∀ scale vehicles mileage meals others cap d,
      compute_person_annual_detail scale vehicles mileage meals others
        cap = some d →
      d.total_deduction = d.mileage_deduction_total +
        d.meals_deduction_total + d.other_expenses_total) ∧
    (∀ people : List PersonSummary,
      (∀ p ∈ people, p.total_deduction =
        p.vehicle_deduction_total + p.meals_deduction +
          p.other_expenses) →
      (summarizeTotals people).total =
        (summarizeTotals people).vehicles +
        (summarizeTotals people).meals +
        (summarizeTotals people).other) := by
  constructor
  · intro scale vehicles mileage meals others cap d h
    simp only [compute_person_annual_detail, bind, Option.bind_eq_some,
      pure, Option.some.injEq] at h
    obtain ⟨deds, hdeds, hd⟩ := h
    have hm : IsCent deds.sum := by
      refine isCent_sum ?_
      intro q hq
      obtain ⟨vid, _, hvid⟩ := mapM_option_mem hdeds q hq
      simp only [bind, Option.bind_eq_some] at hvid
      obtain ⟨power, _, brackets, _, hres⟩ := hvid
      exact resolve_mileage_deduction_isCent hres
    rw [← hd]
    exact round2_eq_self
      (isCent_add (isCent_add hm (isCent_round2 _)) (isCent_round2 _))
  · intro people h
    exact summarizeTotals_invariant people h ⟨0, 0, 0, 0⟩ (by norm_num)

theorem round2_zero : round2 0 = 0 := round2_eq_self isCent_zero

/-- C3 witness: the consistency theorem applied to the detail computed
from empty entry lists and to a one-person dashboard whose row satisfies
the per-person equation. -/
theorem total_deduction_consistency_witness :
    ((PersonAnnualDetail.mk [] [] [] 0 0 0 0 0).total_deduction =
      (PersonAnnualDetail.mk [] [] [] 0 0 0 0 0).mileage_deduction_total +
      (PersonAnnualDetail.mk [] [] [] 0 0 0 0 0).meals_deduction_total +
      (PersonAnnualDetail.mk [] [] [] 0 0 0 0 0).other_expenses_total) ∧
    ((summarizeTotals
        [⟨1, "Alice", "Martin", "Foyer Martin", [], 10, 20, 30, 60⟩]).total =
      (summarizeTotals
        [⟨1, "Alice", "Martin", "Foyer Martin", [], 10, 20, 30, 60⟩]).vehicles +
      (summarizeTotals
        [⟨1, "Alice", "Martin", "Foyer Martin", [], 10, 20, 30, 60⟩]).meals +
      (summarizeTotals
        [⟨1, "Alice", "Martin", "Foyer Martin", [], 10, 20, 30, 60⟩]).other) :=
  ⟨total_deduction_consistency.1 [] [] [] [] [] ⟨26 / 5, 207 / 10⟩
      ⟨[], [], [], 0, 0, 0, 0, 0⟩
      (by simp [compute_person_annual_detail, vehicleGroupIds, round2_zero,
        pure, List.mapM, List.mapM.loop]),
   total_deduction_consistency.2
      [⟨1, "Alice", "Martin", "Foyer Martin", [], 10, 20, 30, 60⟩]
      (by
        intro p hp
        rw [List.mem_singleton] at hp
        subst hp
        norm_num)⟩

/-- C5: a person with zero entries in all three categories yields a
detail with every category total and the grand total equal to 0 and no
error, whatever the scale, vehicles and cap configuration; and the
dashboard summarizer applied to an empty people list returns zero for
all four totals. -/
theorem zero_entries_zero_totals :
    (∀ scale vehicles cap,
      compute_person_annual_detail scale vehicles [] [] [] cap =
        some ⟨[], [], [], 0, 0, 0, 0, 0⟩) ∧
    summarizeTotals [] = ⟨0, 0, 0, 0⟩ := by
  constructor
  · intro scale vehicles cap
    simp [compute_person_annual_detail, vehicleGroupIds, round2_zero,
      pure, List.mapM, List.mapM.loop]
  · rfl

theorem except_bind_isOk {ε α β : Type} (e : Except ε α)
    (f : α → Except ε β) :
    (e >>= f).isOk = true ↔ ∃ x, e = Except.ok x ∧ (f x).isOk = true := by
  cases e <;> simp [Bind.bind, Except.bind, Except.isOk, Except.toBool]

theorem parseIntegerField_eq_ok {v : Option Int} {l : String}
    {lo hi : Option Int} {x : Int} :
    parseIntegerField v l lo hi = Except.ok x ↔
      v = some x ∧ (∀ m, lo = some m → m ≤ x) ∧
        (∀ m, hi = some m → x ≤ m) := by
  cases v with
  | none => simp [parseIntegerField]
  | some p =>
    simp only [parseIntegerField]
    split_ifs with h1 h2
    · constructor
      · intro h; cases h
      · rintro ⟨hx, hlo, -⟩
        injection hx with hx
        subst hx
        cases lo with
        | none => simp at h1
        | some m =>
          simp at h1
          exact absurd (hlo m rfl) (not_le.mpr h1)
    · constructor
      · intro h; cases h
      · rintro ⟨hx, -, hhi⟩
        injection hx with hx
        subst hx
        cases hi with
        | none => simp at h2
        | some m =>
          simp at h2
          exact absurd (hhi m rfl) (not_le.mpr h2)
    · constructor
      · intro h
        injection h with h
        subst h
        refine ⟨rfl, ?_, ?_⟩
        · intro m hm
          subst hm
          simp at h1
          exact h1
        · intro m hm
          subst hm
          simp at h2
          exact h2
      · rintro ⟨hx, -, -⟩
        injection hx with hx
        subst hx
        rfl

theorem parseDecimalField_eq_ok {v : Option ℚ} {l : String}
    {lo : Option ℚ} {x : ℚ} :
    parseDecimalField v l lo = Except.ok x ↔
      v = some x ∧ (∀ m, lo = some m → m ≤ x) := by
  cases v with
  | none => simp [parseDecimalField]
  | some p =>
    simp only [parseDecimalField]
    split_ifs with h1
    · constructor
      · intro h; cases h
      · rintro ⟨hx, hlo⟩
        injection hx with hx
        subst hx
        cases lo with
        | none => simp at h1
        | some m =>
          simp at h1
          exact absurd (hlo m rfl) (not_le.mpr h1)
    · constructor
      · intro h
        injection h with h
        subst h
        refine ⟨rfl, ?_⟩
        intro m hm
        subst hm
        simp at h1
        exact h1
      · rintro ⟨hx, -⟩
        injection hx with hx
        subst hx
        rfl

theorem parseTextField_eq_ok {v l : String} {maxLength : Nat}
    {x : String} :
    parseTextField v l maxLength = Except.ok x ↔
      v = x ∧ v ≠ "" ∧ (maxLength ≠ 0 → v.length ≤ maxLength) := by
  simp only [parseTextField]
  split_ifs with h1 h2
  · simp [h1]
  · obtain ⟨hml, hlen⟩ := h2
    constructor
    · intro h; cases h
    · rintro ⟨hx, -, hbound⟩
      exact absurd (hbound hml) (not_le.mpr hlen)
  · push_neg at h2
    constructor
    · intro h
      injection h with h
      exact ⟨h, h1, h2⟩
    · rintro ⟨hx, -, -⟩
      rw [hx]

theorem buildMileagePayload_isOk
    (personId vehicleId year month : Option Int) (km : Option ℚ) :
    (buildMileagePayload personId vehicleId year month km).isOk = true ↔
      (∃ p, personId = some p ∧ 1 ≤ p) ∧
      (∃ v, vehicleId = some v ∧ 1 ≤ v) ∧
      (∃ y, year = some y ∧ 2000 ≤ y ∧ y ≤ 2100) ∧
      (∃ m, month = some m ∧ 1 ≤ m ∧ m ≤ 12) ∧
      (∃ q, km = some q ∧ 0 ≤ q) := by
  simp only [buildMileagePayload, except_bind_isOk,
    parseIntegerField_eq_ok, parseDecimalField_eq_ok]
  constructor
  · rintro ⟨p, ⟨hp, hp1, -⟩, v, ⟨hv, hv1, -⟩, y, ⟨hy, hy1, hy2⟩,
      m, ⟨hm, hm1, hm2⟩, q, ⟨hq, hq1⟩, -⟩
    exact ⟨⟨p, hp, hp1 1 rfl⟩, ⟨v, hv, hv1 1 rfl⟩,
      ⟨y, hy, hy1 2000 rfl, hy2 2100 rfl⟩,
      ⟨m, hm, hm1 1 rfl, hm2 12 rfl⟩, ⟨q, hq, hq1 0 rfl⟩⟩
  · rintro ⟨⟨p, hp, hp1⟩, ⟨v, hv, hv1⟩, ⟨y, hy, hy1, hy2⟩,
      ⟨m, hm, hm1, hm2⟩, ⟨q, hq, hq1⟩⟩
    refine ⟨p, ⟨hp, ?_, ?_⟩, v, ⟨hv, ?_, ?_⟩, y, ⟨hy, ?_, ?_⟩,
      m, ⟨hm, ?_, ?_⟩, q, ⟨hq, ?_⟩, ?_⟩ <;>
      first
        | (intro z hz; injection hz with hz; subst hz; assumption)
        | (intro z hz; cases hz)
        | rfl

theorem buildMealPayload_isOk
    (personId year month : Option Int) (mealCost : Option ℚ) :
    (buildMealPayload personId year month mealCost).isOk = true ↔
      (∃ p, personId = some p ∧ 1 ≤ p) ∧
      (∃ y, year = some y ∧ 2000 ≤ y ∧ y ≤ 2100) ∧
      (∃ m, month = some m ∧ 1 ≤ m ∧ m ≤ 12) ∧
      (∃ q, mealCost = some q ∧ 0 ≤ q) := by
  simp only [buildMealPayload, except_bind_isOk,
    parseIntegerField_eq_ok, parseDecimalField_eq_ok]
  constructor
  · rintro ⟨p, ⟨hp, hp1, -⟩, y, ⟨hy, hy1, hy2⟩,
      m, ⟨hm, hm1, hm2⟩, q, ⟨hq, hq1⟩, -⟩
    exact ⟨⟨p, hp, hp1 1 rfl⟩,
      ⟨y, hy, hy1 2000 rfl, hy2 2100 rfl⟩,
      ⟨m, hm, hm1 1 rfl, hm2 12 rfl⟩, ⟨q, hq, hq1 0 rfl⟩⟩
  · rintro ⟨⟨p, hp, hp1⟩, ⟨y, hy, hy1, hy2⟩,
      ⟨m, hm, hm1, hm2⟩, ⟨q, hq, hq1⟩⟩
    refine ⟨p, ⟨hp, ?_, ?_⟩, y, ⟨hy, ?_, ?_⟩,
      m, ⟨hm, ?_, ?_⟩, q, ⟨hq, ?_⟩, ?_⟩ <;>
      first
        | (intro z hz; injection hz with hz; subst hz; assumption)
        | (intro z hz; cases hz)
        | rfl

theorem buildOtherExpensePayload_isOk
    (personId year : Option Int) (description : String)
    (amount : Option ℚ) (attachmentPath : String) :
    (buildOtherExpensePayload personId year description amount
      attachmentPath).isOk = true ↔
      (∃ p, personId = some p ∧ 1 ≤ p) ∧
      (∃ y, year = some y ∧ 2000 ≤ y ∧ y ≤ 2100) ∧
      (description ≠ "" ∧ description.length ≤ 160) ∧
      (∃ q, amount = some q ∧ 0 ≤ q) := by
  simp only [buildOtherExpensePayload, except_bind_isOk,
    parseIntegerField_eq_ok, parseDecimalField_eq_ok,
    parseTextField_eq_ok]
  constructor
  · rintro ⟨p, ⟨hp, hp1, -⟩, y, ⟨hy, hy1, hy2⟩,
      d, ⟨hd, hd1, hd2⟩, q, ⟨hq, hq1⟩, -⟩
    exact ⟨⟨p, hp, hp1 1 rfl⟩,
      ⟨y, hy, hy1 2000 rfl, hy2 2100 rfl⟩,
      ⟨hd1, hd2 (by norm_num)⟩, ⟨q, hq, hq1 0 rfl⟩⟩
  · rintro ⟨⟨p, hp, hp1⟩, ⟨y, hy, hy1, hy2⟩,
      ⟨hd1, hd2⟩, ⟨q, hq, hq1⟩⟩
    refine ⟨p, ⟨hp, ?_, ?_⟩, y, ⟨hy, ?_, ?_⟩,
      description, ⟨rfl, hd1, fun _ => hd2⟩, q, ⟨hq, ?_⟩, ?_⟩ <;>
      first
        | (intro z hz; injection hz with hz; subst hz; assumption)
        | (intro z hz; cases hz)
        | rfl

/-- C4 counterexample: with month 5, year 2024 and a kilometre amount of
10 — all inside the ranges the claim lists — `buildMileagePayload`
still throws, because it additionally requires `person_id ≥ 1`; success
is therefore not equivalent to the three listed range conditions. -/
theorem payload_builder_range_only_false :
    ((1 : Int) ≤ 5 ∧ (5 : Int) ≤ 12) ∧
    ((2000 : Int) ≤ 2024 ∧ (2024 : Int) ≤ 2100) ∧
    (0 : ℚ) ≤ 10 ∧
    (buildMileagePayload (some 0) (some 1) (some 2024) (some 5)
      (some 10)).isOk = false := by
  refine ⟨⟨by norm_num, by norm_num⟩, ⟨by norm_num, by norm_num⟩,
    by norm_num, ?_⟩
  rfl

/-- C4 (amended): each create-payload builder succeeds exactly when all
its fields are valid — the id fields parse to integers ≥ 1, the year to
an integer in [2000, 2100], the month to an integer in [1, 12], the
decimal amount (km, meal_cost or amount) to a finite number ≥ 0, and
(for other expenses) the description is non-empty with at most 160
characters; any invalid field makes it throw instead of coercing. -/
theorem payload_builder_validation :
    (∀ personId vehicleId year month : Option Int, ∀ km : Option ℚ,
      (buildMileagePayload personId vehicleId year month km).isOk =
        true ↔
        (∃ p, personId = some p ∧ 1 ≤ p) ∧
        (∃ v, vehicleId = some v ∧ 1 ≤ v) ∧
        (∃ y, year = some y ∧ 2000 ≤ y ∧ y ≤ 2100) ∧
        (∃ m, month = some m ∧ 1 ≤ m ∧ m ≤ 12) ∧
        (∃ q, km = some q ∧ 0 ≤ q)) ∧
    (∀ personId year month : Option Int, ∀ mealCost : Option ℚ,
      (buildMealPayload personId year month mealCost).isOk = true ↔
        (∃ p, personId = some p ∧ 1 ≤ p) ∧
        (∃ y, year = some y ∧ 2000 ≤ y ∧ y ≤ 2100) ∧
        (∃ m, month = some m ∧ 1 ≤ m ∧ m ≤ 12) ∧
        (∃ q, mealCost = some q ∧ 0 ≤ q)) ∧
    (∀ personId year : Option Int, ∀ description : String,
      ∀ amount : Option ℚ, ∀ attachmentPath : String,
      (buildOtherExpensePayload personId year description amount
        attachmentPath).isOk = true ↔
        (∃ p, personId = some p ∧ 1 ≤ p) ∧
        (∃ y, year = some y ∧ 2000 ≤ y ∧ y ≤ 2100) ∧
        (description ≠ "" ∧ description.length ≤ 160) ∧
        (∃ q, amount = some q ∧ 0 ≤ q)) :=
  ⟨buildMileagePayload_isOk, buildMealPayload_isOk,
    buildOtherExpensePayload_isOk⟩

/-- C6: the serialized person annual detail carries exactly the field
names `mileage_total_km`, `mileage_deduction_total`,
`meals_deduction_total`, `other_expenses_total`, `total_deduction` and
the three echoed entry lists, and both presentation-layer readers
(`buildDetailPanel` and `loadPersonDetails`) find all the fields they
read under these names, recovering exactly the assembled values. -/
theorem person_annual_detail_field_names
    (mileageEntries mealExpenses otherExpenses : List JVal)
    (km a b c t : ℚ) :
    detailPanelReads
        (detailToJson mileageEntries mealExpenses otherExpenses
          km a b c t) =
      some (.num km, .num a, .num b, .num c, .num t,
        .arr mileageEntries, .arr mealExpenses, .arr otherExpenses) ∧
    loadPersonDetailsFields
        (detailToJson mileageEntries mealExpenses otherExpenses
          km a b c t) =
      some (.arr mileageEntries, .arr mealExpenses, .arr otherExpenses) :=
  ⟨rfl, rfl⟩

/-- C7 counterexample: a persisted bracket carrying the claim's field
names `upper_km_bound`, `rate_per_km`, `fixed_allowance` does not
survive rendering — `renderMileageScale` reads `max_km`, `rate` and
`fixed` and aborts (TypeError on a missing `rate`), so the claimed shape
does not round-trip through the rendering consumer. -/
theorem scale_spec_named_bracket_unrendered :
    renderMileageScale
      [(4, [JVal.obj [("upper_km_bound", JVal.num 5000),
                      ("rate_per_km", JVal.num (529 / 1000)),
                      ("fixed_allowance", JVal.num 0)]])] = none := rfl

theorem renderScaleBrackets_ok (powerCv : Int) :
    ∀ brackets : List JVal,
      (∀ b ∈ brackets,
        (∃ r, b.lookup "rate" = some (.num r)) ∧
        (∃ f, b.lookup "fixed" = some (.num f))) →
      brackets.mapM (renderScaleBracketRow powerCv) =
        some (brackets.map (bracketCells powerCv)) := by
  intro brackets
  induction brackets with
  | nil => intro _; rfl
  | cons b bs ih =>
    intro h
    obtain ⟨⟨r, hr⟩, ⟨f, hf⟩⟩ := h b (List.mem_cons_self b bs)
    have hrow : renderScaleBracketRow powerCv b =
        some (bracketCells powerCv b) := by
      rw [renderScaleBracketRow, hr, hf, bracketCells, hr, hf]
    simp only [List.mapM_cons, hrow,
      ih fun b2 hb2 => h b2 (List.mem_cons_of_mem b hb2),
      List.map_cons, bind, Option.bind, pure]

/-- C7 (amended): each persisted scale entry is keyed by `power_cv`
with an ordered bracket list whose elements carry the fields `max_km`
(nullable, `null` meaning unbounded), `rate` and `fixed`, and this
shape survives rendering with the bracket order preserved end to end:
the rendered table is exactly the concatenation, scale entry by scale
entry and bracket by bracket, of each bracket's cells. -/
theorem mileage_scale_rendered_roundtrip
    (scale : List (Int × List JVal))
    (hwf : ∀ entry ∈ scale, ∀ b ∈ entry.2,
      (∃ r, b.lookup "rate" = some (.num r)) ∧
      (∃ f, b.lookup "fixed" = some (.num f))) :
    renderMileageScale scale =
      some (scale.flatMap fun entry =>
        entry.2.map (bracketCells entry.1)) := by
  induction scale with
  | nil => rfl
  | cons entry rest ih =>
    have hentry := renderScaleBrackets_ok entry.1 entry.2
      (hwf entry (List.mem_cons_self entry rest))
    have hrest := ih fun e he b hb =>
      hwf e (List.mem_cons_of_mem entry he) b hb
    simp only [renderMileageScale, bind, Option.bind_eq_some, pure,
      Option.some.injEq] at hrest
    obtain ⟨rowLists, hrows, hflat⟩ := hrest
    simp only [renderMileageScale, List.mapM_cons, bind, hentry, hrows,
      Option.bind, pure, List.flatten_cons, List.flatMap_cons,
      Option.some.injEq]
    rw [hflat]

/-- C7 witness: the round-trip theorem applied to a two-bracket 5 CV
scale persisted under the source's field names (`max_km` null on the
last bracket), rendered in order. -/
theorem mileage_scale_rendered_roundtrip_witness :
    renderMileageScale
      [(5, [JVal.obj [("max_km", JVal.num 5000),
                      ("rate", JVal.num (529 / 1000)),
                      ("fixed", JVal.num 0)],
            JVal.obj [("max_km", JVal.null),
                      ("rate", JVal.num (37 / 100)),
                      ("fixed", JVal.num 0)]])] =
      some (([(5, [JVal.obj [("max_km", JVal.num 5000),
                             ("rate", JVal.num (529 / 1000)),
                             ("fixed", JVal.num 0)],
                   JVal.obj [("max_km", JVal.null),
                             ("rate", JVal.num (37 / 100)),
                             ("fixed", JVal.num 0)]])] :
          List (Int × List JVal)).flatMap fun entry =>
        entry.2.map (bracketCells entry.1)) :=
  mileage_scale_rendered_roundtrip _ (by
    intro entry he b hb
    rw [List.mem_singleton] at he
    subst he
    rcases List.mem_cons.mp hb with hEq | hb2
    · subst hEq
      exact ⟨⟨529 / 1000, rfl⟩, ⟨0, rfl⟩⟩
    · rw [List.mem_singleton] at hb2
      subst hb2
      exact ⟨⟨37 / 100, rfl⟩, ⟨0, rfl⟩⟩)

/-- C8: `sortPeople` returns a permutation of its input for every
collation, key and direction (the input list itself, being a value, is
untouched — the source copies the array before sorting in place); for
numeric sort keys the comparator depends on a row only through
`row[sortKey] ?? 0`, so a row whose sort-key field is missing is
compared exactly as if its value were 0. -/
theorem sortPeople_permutation (lc : String → String → Int)
    (people : List PersonSummary) (sortKey direction : String) :
    (sortPeople lc people sortKey direction).Perm people ∧
    (∀ p : PersonSummary, p.lookupNum sortKey = none →
      p.sortValue sortKey = 0) ∧
    (∀ l r l2 r2 : PersonSummary,
      sortKey ≠ "person" → sortKey ≠ "household" →
      l.sortValue sortKey = l2.sortValue sortKey →
      r.sortValue sortKey = r2.sortValue sortKey →
      personComparator lc sortKey direction l r =
        personComparator lc sortKey direction l2 r2) := by
  refine ⟨List.mergeSort_perm people _, ?_, ?_⟩
  · intro p h
    rw [PersonSummary.sortValue, h]
    rfl
  · intro l r l2 r2 hp hh hl hr
    simp only [personComparator, beq_iff_eq, hp, hh, if_false, hl, hr,
      ite_false]

/-- C8 witness: the permutation and the missing-field-as-zero behaviour
at a concrete two-row dashboard sorted by an absent key. -/
theorem sortPeople_permutation_witness :
    (sortPeople (fun _ _ => 0) [samplePersonA, samplePersonB] "zzz"
      "desc").Perm [samplePersonA, samplePersonB] ∧
    samplePersonA.sortValue "zzz" = 0 ∧
    personComparator (fun _ _ => 0) "zzz" "desc" samplePersonA
        samplePersonB =
      personComparator (fun _ _ => 0) "zzz" "desc" samplePersonA
        samplePersonB :=
  ⟨(sortPeople_permutation (fun _ _ => 0)
      [samplePersonA, samplePersonB] "zzz" "desc").1,
   (sortPeople_permutation (fun _ _ => 0)
      [samplePersonA, samplePersonB] "zzz" "desc").2.1
      samplePersonA rfl,
   (sortPeople_permutation (fun _ _ => 0)
      [samplePersonA, samplePersonB] "zzz" "desc").2.2
      samplePersonA samplePersonB samplePersonA samplePersonB
      (by decide) (by decide) rfl rfl⟩

/-- C9: `filterPeople` with an empty query returns the input list
itself; with a non-empty query it returns a subsequence of the input
(order preserved, no duplication) containing exactly the rows whose
full name, household name or joined vehicle names contain the query
case-insensitively. -/
theorem filterPeople_subsequence (people : List PersonSummary)
    (query : String) :
    filterPeople people "" = people ∧
    (filterPeople people query).Sublist people ∧
    (query ≠ "" → ∀ p, p ∈ filterPeople people query ↔
      p ∈ people ∧ personMatches p query.toLower = true) := by
  refine ⟨rfl, ?_, ?_⟩
  · rw [filterPeople]
    split_ifs
    · exact List.Sublist.refl people
    · exact List.filter_sublist people
  · intro hq p
    rw [filterPeople, if_neg hq, List.mem_filter]

/-- C9 witness: the filter theorem at a concrete dashboard and the
query "mar", which matches the first row by name. -/
theorem filterPeople_subsequence_witness :
    filterPeople [samplePersonA, samplePersonB] "" =
      [samplePersonA, samplePersonB] ∧
    (samplePersonA ∈ filterPeople [samplePersonA, samplePersonB] "mar" ↔
      samplePersonA ∈ [samplePersonA, samplePersonB] ∧
        personMatches samplePersonA "mar".toLower = true) :=
  ⟨(filterPeople_subsequence [samplePersonA, samplePersonB] "").1,
   (filterPeople_subsequence [samplePersonA, samplePersonB] "mar").2.2
      (by decide) samplePersonA⟩

/-- C10: `formatCurrency` maps every value that is not a finite number
(NaN, either infinity, or a non-number) to the fallback string "0 €"
instead of throwing or rendering the invalid value, for every locale
formatter. -/
theorem formatCurrency_fallback (fmt : ℚ → String) (value : JsValue)
    (h : value.isFinite = false) : formatCurrency fmt value = "0 €" := by
  cases value with
  | finite q => exact absurd h (by simp [JsValue.isFinite])
  | nan => rfl
  | posInf => rfl
  | negInf => rfl
  | nonNumber => rfl

/-- C10 witness: the fallback theorem applied to NaN. -/
theorem formatCurrency_fallback_witness :
    formatCurrency (fun _ => "12,00 €") JsValue.nan = "0 €" :=
  formatCurrency_fallback (fun _ => "12,00 €") JsValue.nan rfl
